import Mathlib

/-!
Verification development for the `jsonmodels` field engine
(`jsonmodels/fields.py`).  The Python code is shallowly embedded: Python
runtime values become the inductive `Value`, exceptions become an error
type threaded through `Except`, and the per-instance weak-key store becomes
an explicit association list.  Each definition is translated from the
corresponding function in `fields.py`; collaborator behaviour that lives
outside the module (the model base class registry, the `dateutil` parser,
Python builtins) is modelled where the fields code calls into it, as
documented on each definition.
-/

namespace JsonModels

/-- Python runtime types that the fields module inspects with `isinstance`.
Model classes (subclasses of the model base) are identified by a numeric id. -/
inductive PyTy where
  | noneTy
  | boolTy
  | intTy
  | floatTy
  | strTy
  | listTy
  | tupleTy
  | dictTy
  | timeTy
  | dateTy
  | datetimeTy
  | modelTy (id : Nat)
deriving DecidableEq, Repr

/-- A `datetime.time` value: clock fields plus an optional UTC offset in
minutes (`tzinfo`); offsets with sub-minute resolution are outside the model. -/
structure PyTime where
  hour : Nat
  minute : Nat
  second : Nat
  micro : Nat
  tzMin : Option Int
deriving DecidableEq, Repr

/-- A `datetime.date` value. -/
structure PyDate where
  year : Nat
  month : Nat
  day : Nat
deriving DecidableEq, Repr

/-- A `datetime.datetime` value: a date plus a time (the time part carries
the optional UTC offset). -/
structure PyDateTime where
  date : PyDate
  time : PyTime
deriving DecidableEq, Repr

/-- Python values as seen by the fields module.  Strings are char lists so
that the dotted-path functions can be reasoned about; floats are modelled as
rationals (no claim depends on binary rounding); a constructed model
instance carries its class id and the keyword payload it was built from. -/
inductive Value where
  | none
  | bool (b : Bool)
  | int (n : Int)
  | float (q : Rat)
  | str (s : List Char)
  | list (xs : List Value)
  | tuple (xs : List Value)
  | dict (kvs : List (List Char × Value))
  | time (t : PyTime)
  | date (d : PyDate)
  | datetime (dt : PyDateTime)
  | model (id : Nat) (payload : List (List Char × Value))
deriving Repr

/-- The runtime type of a value. -/
def Value.pyTy : Value → PyTy
  | Value.none => PyTy.noneTy
  | Value.bool _ => PyTy.boolTy
  | Value.int _ => PyTy.intTy
  | Value.float _ => PyTy.floatTy
  | Value.str _ => PyTy.strTy
  | Value.list _ => PyTy.listTy
  | Value.tuple _ => PyTy.tupleTy
  | Value.dict _ => PyTy.dictTy
  | Value.time _ => PyTy.timeTy
  | Value.date _ => PyTy.dateTy
  | Value.datetime _ => PyTy.datetimeTy
  | Value.model i _ => PyTy.modelTy i

/-- One `isinstance` step against a single type, including the builtin
subclass relations the standard library actually has: `bool` is a subclass
of `int`, and `datetime.datetime` is a subclass of `datetime.date`. -/
def isInstOne (v : Value) (t : PyTy) : Bool :=
  v.pyTy = t
    || (v.pyTy = PyTy.boolTy && t = PyTy.intTy)
    || (v.pyTy = PyTy.datetimeTy && t = PyTy.dateTy)

/-- `isinstance(v, tys)` against a tuple of types. -/
def isInst (v : Value) (tys : List PyTy) : Bool :=
  tys.any (isInstOne v)

/-- `value is None`, the identity test the source uses throughout. -/
def Value.isNone : Value → Bool
  | Value.none => true
  | _ => false

/-- Python truthiness (`bool(v)` / `if v:`), per the builtin rules: `None`,
`False`, numeric zero and empty containers are falsy; time/date/model
objects are truthy. -/
def pyTruthy : Value → Bool
  | Value.none => false
  | Value.bool b => b
  | Value.int n => n != 0
  | Value.float q => q != 0
  | Value.str s => !s.isEmpty
  | Value.list xs => !xs.isEmpty
  | Value.tuple xs => !xs.isEmpty
  | Value.dict kvs => !kvs.isEmpty
  | Value.time _ => true
  | Value.date _ => true
  | Value.datetime _ => true
  | Value.model _ _ => true

/-- Exceptions raised by the fields module and by the Python builtins it
calls.  `badTypeError` keeps the `is_list` tag of `errors.BadTypeError`;
`ambiguousTypeError` carries the candidate model ids, as
`errors.AmbiguousTypeError` carries the candidate list; the message payloads
of the remaining errors are dropped. -/
inductive PyErr where
  | valueError
  | typeError
  | indexError
  | keyError
  | attributeError
  | requiredFieldError
  | badTypeError (isList : Bool)
  | ambiguousTypeError (ids : List Nat)
  | validatorError (tag : Nat)
deriving DecidableEq, Repr

/-- A configured validator.  In the source a validator is either an object
with a `validate` method or a bare callable (`_validate_with_custom_validators`
dispatches between the two with a `try/except AttributeError`); both forms
are one value-to-outcome function here. -/
abbrev Check := Value → Except PyErr Unit

/-- Run a list of validators in declaration order; the first raise wins. -/
def runChecks : List Check → Value → Except PyErr Unit
  | [], _ => Except.ok ()
  | c :: cs, v =>
    match c v with
    | Except.error e => Except.error e
    | Except.ok _ => runChecks cs v

/-- The configuration of a `BaseField` that `validate` consults.
`types = Option.none` models the abstract base class, whose class attribute
`types` is the Python `None`. -/
structure BaseField where
  types : Option (List PyTy)
  required : Bool
  nullable : Bool
  validators : List Check

/-- `BaseField._check_types`: raise `ValueError` when the field's accepted
type tuple is absent (`types is None`). -/
def _check_types (f : BaseField) : Except PyErr Unit :=
  match f.types with
  | Option.none => Except.error PyErr.valueError
  | some _ => Except.ok ()

/-- `BaseField._validate_against_types`:
`if value is not None and not isinstance(value, self.types): raise BadTypeError`.
When `self.types` is the Python `None` and the value is not `None`,
`isinstance` itself raises `TypeError` (this branch is unreachable from
`validate`, which checks the types first). -/
def _validate_against_types (f : BaseField) (v : Value) : Except PyErr Unit :=
  if v.isNone then Except.ok ()
  else
    match f.types with
    | Option.none => Except.error PyErr.typeError
    | some tys =>
      if isInst v tys then Except.ok ()
      else Except.error (PyErr.badTypeError false)

/-- `BaseField._check_against_required`:
`if value is None and self.required: raise RequiredFieldError()`. -/
def _check_against_required (f : BaseField) (v : Value) : Except PyErr Unit :=
  if v.isNone && f.required then Except.error PyErr.requiredFieldError
  else Except.ok ()

/-- `BaseField._validate_with_custom_validators`:
`if value is None and self.nullable: return`, else run each validator. -/
def _validate_with_custom_validators (f : BaseField) (v : Value) :
    Except PyErr Unit :=
  if v.isNone && f.nullable then Except.ok ()
  else runChecks f.validators v

/-- `BaseField.validate`: the four checks in source order. -/
def BaseField.validate (f : BaseField) (v : Value) : Except PyErr Unit := do
  _check_types f
  _validate_against_types f v
  _check_against_required f v
  _validate_with_custom_validators f v

/-- Claim C1: `validate(value)` performs, in order: (a) the usable
accepted-type-set check, raising when the set is absent; (b) the
type-membership check, skipped exactly when the value is null; (c) the
required-ness check, raising `RequiredFieldError` exactly when the value is
null and the field is required; (d) the configured validators in declaration
order — and when the field is nullable and the value is null, step (d) is
skipped entirely while (a)-(c) still run.  Stated as the equality of
`validate` with that pipeline in explicit, flattened form. -/
theorem validate_pipeline (f : BaseField) (v : Value) :
    f.validate v =
      match f.types with
      | Option.none => Except.error PyErr.valueError
      | some tys =>
        if !v.isNone && !isInst v tys then
          Except.error (PyErr.badTypeError false)
        else if v.isNone && f.required then
          Except.error PyErr.requiredFieldError
        else if v.isNone && f.nullable then
          Except.ok ()
        else
          runChecks f.validators v := by
  unfold BaseField.validate _check_types _validate_against_types
    _check_against_required _validate_with_custom_validators
  rcases hty : f.types with _ | tys
  · rfl
  · cases hv : v.isNone <;>
      cases hr : f.required <;>
      cases hn : f.nullable <;>
      cases hi : isInst v tys <;>
      simp [hv, hr, hn, hi, Bind.bind, Except.bind]

/-! ## The per-instance value store and the descriptor lifecycle (C2, C4)

`BaseField.__set__` / `__get__` / `_check_value` work against
`self.memory`, a `WeakKeyDictionary` keyed by `instance._cache_key`.  The
store is modelled as an association list keyed by a numeric instance
identity; the weak-reference lifetime aspect is outside the model.  The
`_finish_initialization` call at the top of `__set__`/`__get__` mutates only
the field's own lazy type references, never the store, and is a no-op for
the base field, so it is not part of the store model. -/

abbrev Memory := List (Nat × Value)

/-- `self.memory[key] = value`: later writes shadow earlier ones. -/
def memInsert (mem : Memory) (k : Nat) (v : Value) : Memory :=
  (k, v) :: mem

/-- `key in self.memory` / `self.memory[key]` lookup. -/
def memLookup (mem : Memory) (k : Nat) : Option Value :=
  match mem.find? (fun p => p.1 = k) with
  | Option.none => Option.none
  | some p => some p.2

/-- The operations of one concrete field that the descriptor protocol
invokes: `parse_value`, `validate`, and `get_default_value()`.  Keeping them
abstract makes the store theorems hold for every field implementation. -/
structure FieldOps where
  parse : Value → Except PyErr Value
  check : Value → Except PyErr Unit
  dflt : Value

/-- `BaseField.__set__`:
`value = self.parse_value(value); self.validate(value);
self.memory[instance._cache_key] = value`.  The returned pair is the store
after the call and the exception, if one was raised. -/
def fieldSet (ops : FieldOps) (mem : Memory) (k : Nat) (raw : Value) :
    Memory × Option PyErr :=
  match ops.parse raw with
  | Except.error e => (mem, some e)
  | Except.ok parsed =>
    match ops.check parsed with
    | Except.error e => (mem, some e)
    | Except.ok _ => (memInsert mem k parsed, Option.none)

/-- `BaseField.__get__` on an instance (the `instance is None` class-access
branch returns the field object itself and is outside the model), together
with `_check_value`: if the key is absent, `__set__(obj, get_default_value())`
runs first, then the stored value is read back. -/
def fieldGet (ops : FieldOps) (mem : Memory) (k : Nat) :
    Memory × Except PyErr Value :=
  match memLookup mem k with
  | some v => (mem, Except.ok v)
  | Option.none =>
    match fieldSet ops mem k ops.dflt with
    | (mem', some e) => (mem', Except.error e)
    | (mem', Option.none) =>
      match memLookup mem' k with
      | some v => (mem', Except.ok v)
      | Option.none => (mem', Except.error PyErr.keyError)

/-- Claim C2: `set(instance, raw)` computes `parse_value(raw)`, then
`validate` on the parsed value; on either failure the store is exactly as
before and that first error is the call's outcome; only on success is the
parsed value stored under the instance's identity. -/
theorem set_parse_validate_store (ops : FieldOps) (mem : Memory) (k : Nat)
    (raw : Value) :
    ((fieldSet ops mem k raw).2.isSome → (fieldSet ops mem k raw).1 = mem)
    ∧ (∀ e, ops.parse raw = Except.error e →
        fieldSet ops mem k raw = (mem, some e))
    ∧ (∀ p e, ops.parse raw = Except.ok p → ops.check p = Except.error e →
        fieldSet ops mem k raw = (mem, some e))
    ∧ (∀ p, ops.parse raw = Except.ok p → ops.check p = Except.ok () →
        fieldSet ops mem k raw = (memInsert mem k p, Option.none)) := by
  refine ⟨?_, ?_, ?_, ?_⟩
  · intro h
    unfold fieldSet at *
    rcases hp : ops.parse raw with e | p
    · simp [hp]
    · rcases hc : ops.check p with e | u
      · simp [hp, hc]
      · simp [hp, hc] at h
  · intro e hp
    unfold fieldSet
    simp [hp]
  · intro p e hp hc
    unfold fieldSet
    simp [hp, hc]
  · intro p hp hc
    unfold fieldSet
    simp [hp, hc]

/-- A concrete field used to instantiate the store theorems: the identity
parse, a validate that accepts everything, default null. -/
def opsAcceptAll : FieldOps :=
  { parse := fun v => Except.ok v
    check := fun _ => Except.ok ()
    dflt := Value.none }

/-- Witness for C2 at a concrete field, store and value. -/
theorem set_parse_validate_store_witness :
    fieldSet opsAcceptAll [] 0 (Value.int 5) =
      (memInsert [] 0 (Value.int 5), Option.none) :=
  (set_parse_validate_store opsAcceptAll [] 0 (Value.int 5)).2.2.2
    (Value.int 5) rfl rfl

/-- Claim C4: `get` is idempotent.  The first get on an instance with no
stored value stores the parsed-and-validated default and returns it; any
subsequent get returns that stored value with the store unchanged — stated
for an arbitrary second set of field operations `ops'`, so no recomputation
or revalidation of the default can be involved — until a later `set`
overwrites it, after which get returns the overwriting value. -/
theorem get_idempotent (ops ops' : FieldOps) (mem : Memory) (k : Nat) :
    (∀ p, memLookup mem k = Option.none →
      ops.parse ops.dflt = Except.ok p → ops.check p = Except.ok () →
      fieldGet ops mem k = (memInsert mem k p, Except.ok p)
        ∧ fieldGet ops' (memInsert mem k p) k =
            (memInsert mem k p, Except.ok p))
    ∧ (∀ v, memLookup mem k = some v → fieldGet ops mem k = (mem, Except.ok v))
    ∧ (∀ w, fieldGet ops' (memInsert mem k w) k =
        (memInsert mem k w, Except.ok w)) := by
  have hins : ∀ (m : Memory) (w : Value), memLookup (memInsert m k w) k = some w := by
    intro m w
    simp [memLookup, memInsert, List.find?]
  refine ⟨?_, ?_, ?_⟩
  · intro p hmiss hp hc
    have hset : fieldSet ops mem k ops.dflt = (memInsert mem k p, Option.none) :=
      (set_parse_validate_store ops mem k ops.dflt).2.2.2 p hp hc
    constructor
    · unfold fieldGet
      simp [hmiss, hset, hins]
    · unfold fieldGet
      simp [hins]
  · intro v hhit
    unfold fieldGet
    simp [hhit]
  · intro w
    unfold fieldGet
    simp [hins]

/-- Witness for C4: on an empty store the first get materializes the
default, the second get (under different field operations) returns the same
stored value, and a hit returns the stored value unchanged. -/
theorem get_idempotent_witness :
    fieldGet opsAcceptAll [] 0 = (memInsert [] 0 Value.none, Except.ok Value.none)
    ∧ fieldGet opsAcceptAll (memInsert [] 0 Value.none) 0 =
        (memInsert [] 0 Value.none, Except.ok Value.none) :=
  (get_idempotent opsAcceptAll opsAcceptAll [] 0).1 Value.none rfl rfl rfl

/-! ## Polymorphic disambiguation (C3) -/

/-- A candidate model class for polymorphic resolution.  `registry` models
the ordered field registry that `iterate_with_name()` yields — per spec §6
the model base class "exposes an ordered, queryable field registry of
(attribute name, optional wire-name override, field) triples" — and
`hasRegistry = false` models a candidate without that attribute (the
`hasattr(model, "iterate_with_name")` guard).  Classes are identified by
`id`; two entries with the same id stand for the same Python class object. -/
structure ModelTy where
  id : Nat
  hasRegistry : Bool
  registry : List (List Char × Option (List Char))
deriving DecidableEq, Repr

/-- The wire-name set of one candidate: `{name or attr for attr, name, field
in model.iterate_with_name()}` — the override when it is set and non-empty
(Python `or` falls through on an empty string), else the attribute name. -/
def wireNames (m : ModelTy) : List (List Char) :=
  m.registry.map (fun p =>
    match p.2 with
    | some n => if n.isEmpty then p.1 else n
    | Option.none => p.1)

/-- A candidate item/model type as held in `items_types` / `types`: either a
plain builtin type or a model class. -/
inductive ItemType where
  | builtin (t : PyTy)
  | model (m : ModelTy)
deriving DecidableEq, Repr

/-- `hasattr(model, "iterate_with_name")`: true only for model classes that
expose the registry. -/
def ItemType.hasRegistry : ItemType → Bool
  | ItemType.builtin _ => false
  | ItemType.model m => m.hasRegistry

/-- The id used in the `AmbiguousTypeError` payload (builtins keep no id in
the model; they never match anyway). -/
def ItemType.tyId : ItemType → Nat
  | ItemType.builtin _ => 0
  | ItemType.model m => m.id

/-- Key-set dedup of the dict comprehension
`{model: {...} for model in models if hasattr(...)}`: a Python dict keeps
one entry per key at its first insertion position. -/
def dedupFirst (l : List ItemType) (seen : List Nat) : List ItemType :=
  match l with
  | [] => []
  | m :: rest =>
    if seen.contains m.tyId then dedupFirst rest seen
    else m :: dedupFirst rest (m.tyId :: seen)

/-- `fields.issuperset(value)` where `value` is the payload dict: every
payload key is among the candidate's wire names. -/
def coversKeys (m : ModelTy) (keys : List (List Char)) : Bool :=
  keys.all (fun k => (wireNames m).contains k)

/-- The matching-candidate filter of `_get_embed_type`:  the dict
comprehension keeps, in first-occurrence order, the candidates exposing a
registry, and `matching_models` keeps those whose wire-name set is a
superset of the payload's keys. -/
def matchingModels (keys : List (List Char)) (models : List ItemType) :
    List ItemType :=
  (dedupFirst (models.filter ItemType.hasRegistry) []).filter
    (fun it =>
      match it with
      | ItemType.builtin _ => false
      | ItemType.model m => coversKeys m keys)

/-- `BaseField._get_embed_type(value, models)`: with more than one candidate,
select by wire-name superset and raise `AmbiguousTypeError(models)` unless
exactly one matches; otherwise return `models[0]` (`IndexError` when the
candidate tuple is empty). -/
def _get_embed_type (keys : List (List Char)) (models : List ItemType) :
    Except PyErr ItemType :=
  if models.length > 1 then
    match matchingModels keys models with
    | [m] => Except.ok m
    | _ => Except.error (PyErr.ambiguousTypeError (models.map ItemType.tyId))
  else
    match models with
    | [] => Except.error PyErr.indexError
    | m :: _ => Except.ok m

/-- `model_type(**value)`: construction of the chosen candidate from the
payload's keyword arguments.  Per spec §6 the model base class "constructs
instances from keyword arguments"; the construction is recorded
structurally.  Calling a builtin type with arbitrary keyword arguments is
modelled as `TypeError` (true of the scalar builtins; no claim exercises
this corner). -/
def constructModel (it : ItemType) (kvs : List (List Char × Value)) :
    Except PyErr Value :=
  match it with
  | ItemType.builtin _ => Except.error PyErr.typeError
  | ItemType.model m => Except.ok (Value.model m.id kvs)

/-- `EmbeddedField.parse_value`: a non-dict passes through unchanged; a dict
is disambiguated against the candidate types and the chosen one is
constructed from the payload. -/
def EmbeddedField.parse_value (models : List ItemType) (v : Value) :
    Except PyErr Value :=
  match v with
  | Value.dict kvs =>
    match _get_embed_type (kvs.map (fun p => p.1)) models with
    | Except.error e => Except.error e
    | Except.ok it => constructModel it kvs
  | _ => Except.ok v

/-- Claim C3: with exactly one candidate, that candidate is constructed from
the payload with no structural check of the payload's keys; with more than
one candidate, the candidates exposing a field registry whose wire-name set
is a superset of the payload's keys are selected, exactly one selected
candidate is constructed from the payload, and zero or several selected
candidates raise `AmbiguousTypeError` carrying the full candidate list. -/
theorem embed_disambiguation (models : List ItemType)
    (kvs : List (List Char × Value)) :
    (∀ m, models = [ItemType.model m] →
      EmbeddedField.parse_value models (Value.dict kvs) =
        Except.ok (Value.model m.id kvs))
    ∧ (1 < models.length →
        (∀ m, matchingModels (kvs.map (fun p => p.1)) models = [ItemType.model m] →
          EmbeddedField.parse_value models (Value.dict kvs) =
            Except.ok (Value.model m.id kvs))
        ∧ ((matchingModels (kvs.map (fun p => p.1)) models).length ≠ 1 →
          EmbeddedField.parse_value models (Value.dict kvs) =
            Except.error (PyErr.ambiguousTypeError (models.map ItemType.tyId)))) := by
  refine ⟨?_, ?_⟩
  · intro m hm
    subst hm
    simp [EmbeddedField.parse_value, _get_embed_type, constructModel]
  · intro hlen
    constructor
    · intro m hm
      simp [EmbeddedField.parse_value, _get_embed_type, hlen, hm, constructModel]
    · intro hne
      rcases hmm : matchingModels (kvs.map (fun p => p.1)) models with _ | ⟨m, _ | ⟨m', rest⟩⟩
      · simp [EmbeddedField.parse_value, _get_embed_type, hlen, hmm]
      · exact absurd (by simp [hmm]) hne
      · simp [EmbeddedField.parse_value, _get_embed_type, hlen, hmm]

/-- Two concrete candidates for the C3 witness: `A` declares wire names
`x, y`; `B` declares `z` (with a wire-name override). -/
def modelA : ModelTy :=
  { id := 1, hasRegistry := true
    registry := [("x".toList, Option.none), ("y".toList, Option.none)] }

/-- Second candidate for the C3 witness. -/
def modelB : ModelTy :=
  { id := 2, hasRegistry := true
    registry := [("zAttr".toList, some "z".toList)] }

/-- Witness for C3: a payload with key `x` selects `A` among `[A, B]`, and a
singleton candidate list constructs `B` even though the key `x` is not among
`B`'s field names. -/
theorem embed_disambiguation_witness :
    EmbeddedField.parse_value [ItemType.model modelA, ItemType.model modelB]
        (Value.dict [("x".toList, Value.int 1)]) =
      Except.ok (Value.model 1 [("x".toList, Value.int 1)])
    ∧ EmbeddedField.parse_value [ItemType.model modelB]
        (Value.dict [("x".toList, Value.int 1)]) =
      Except.ok (Value.model 2 [("x".toList, Value.int 1)]) :=
  ⟨((embed_disambiguation [ItemType.model modelA, ItemType.model modelB]
      [("x".toList, Value.int 1)]).2 (by decide)).1 modelA (by decide),
   (embed_disambiguation [ItemType.model modelB]
      [("x".toList, Value.int 1)]).1 modelB rfl⟩

/-! ## Lazy type-reference path resolution (C5)

`_get_modules` and `_evaluate_path` manipulate the dotted path and the
declaring class's `__module__` as strings; both are char lists here. -/

/-- `relative_path.lstrip('.')`. -/
def lstripDot : List Char → List Char
  | [] => []
  | c :: rest => if c = '.' then lstripDot rest else c :: rest

/-- `relative_path.startswith('.')`. -/
def startsWithDot : List Char → Bool
  | [] => false
  | c :: _ => c = '.'

/-- `s.split('.')` with Python semantics: the empty string yields `[""]`,
and consecutive dots yield empty segments. -/
def splitDot : List Char → List (List Char)
  | [] => [[]]
  | c :: rest =>
    if c = '.' then [] :: splitDot rest
    else
      match splitDot rest with
      | seg :: segs => (c :: seg) :: segs
      | [] => [[c]]

/-- `'.'.join(segs)`. -/
def joinDot : List (List Char) → List Char
  | [] => []
  | [s] => s
  | s :: rest => s ++ '.' :: joinDot rest

/-- Python's `l[:k]` for `k = -p ≤ 0`, as used in
`parent_modules[:parents_amount * -1]`: `l[:0]` is empty, `l[:-p]` keeps all
but the last `p` elements. -/
def pySliceNeg (l : List α) (p : Nat) : List α :=
  if p = 0 then [] else l.take (l.length - p)

/-- `_get_modules(relative_path, base_module)`: strip the leading dots; an
absolute path is returned split as-is; otherwise `parents_amount` is the
number of leading dots minus one (`max(0, ...)` is the truncated
subtraction), more parents than the base module has segments is a
`ValueError`, and the kept leading segments of the base module are prefixed
to the remaining path segments. -/
def _get_modules (relative_path base_module : List Char) :
    Except PyErr (List (List Char)) :=
  let canonical_path := lstripDot relative_path
  let canonical_modules := splitDot canonical_path
  if !startsWithDot relative_path then Except.ok canonical_modules
  else
    let parents_amount := relative_path.length - canonical_path.length
    let parent_modules := splitDot base_module
    let parents_amount' := parents_amount - 1
    if parents_amount' > parent_modules.length then Except.error PyErr.valueError
    else Except.ok (pySliceNeg parent_modules parents_amount' ++ canonical_modules)

/-- `_evaluate_path(relative_path, base_cls)`: pop the final segment as the
type name, join the rest as the module, and fall back to the declaring
module when the joined module is empty.  (`modules.pop()` cannot fail:
`_get_modules` never returns an empty list.) -/
def _evaluate_path (relative_path base_module : List Char) :
    Except PyErr (List Char × List Char) :=
  match _get_modules relative_path base_module with
  | Except.error e => Except.error e
  | Except.ok modules =>
    let type_name := (modules.getLast?).getD []
    let module := joinDot modules.dropLast
    let module' := if module.isEmpty then base_module else module
    Except.ok (module', type_name)

/-- Counterexample to C5 as stated: the path `.sub.Name` declared from
namespace `pkg.mod` has one leading dot, so per the claim it should strip
zero trailing segments of `pkg.mod` and resolve the type in the namespace
`pkg.mod.sub`; the code instead keeps no segment of the declaring namespace
at all (`parent_modules[:0]` is empty) and resolves in the absolute module
`sub`. -/
theorem lazy_path_counterexample :
    _evaluate_path ".sub.Name".toList "pkg.mod".toList =
      Except.ok ("sub".toList, "Name".toList)
    ∧ "sub".toList ≠ "pkg.mod.sub".toList := by
  constructor
  · rfl
  · intro h
    have hlen := congrArg List.length h
    simp at hlen

theorem lstripDot_no_lead (s : List Char) (h : startsWithDot s = false) :
    lstripDot s = s := by
  cases s with
  | nil => rfl
  | cons c rest =>
    have hc : ¬ c = '.' := by simpa [startsWithDot] using h
    simp [lstripDot, hc]

theorem lstripDot_replicate (n : Nat) (rest : List Char)
    (h : startsWithDot rest = false) :
    lstripDot (List.replicate n '.' ++ rest) = rest := by
  induction n with
  | zero => simpa using lstripDot_no_lead rest h
  | succ m ih => simpa [List.replicate_succ, lstripDot] using ih

theorem splitDot_no_dot :
    ∀ s : List Char, (∀ c ∈ s, c ≠ '.') → splitDot s = [s]
  | [], _ => rfl
  | c :: cs, h => by
    have hc : ¬ c = '.' := h c (by simp)
    have ih : splitDot cs = [cs] :=
      splitDot_no_dot cs (fun x hx => h x (by simp [hx]))
    simp [splitDot, hc, ih]

/-- Claim C5 (amended): writing the path as `n` leading dots followed by a
dot-headless remainder, resolution is — no dots: the path split as-is
(absolute); `n ≥ 1` dots: a `ValueError` exactly when `n - 1` exceeds the
number of declaring-namespace segments, and otherwise the kept prefix of
the declaring namespace is *empty* for `n = 1` (not the whole namespace, as
the claim stated) and all but the last `n - 1` segments for `n ≥ 2`,
followed by the remainder's own segments.  For the common single-segment
form `.Name` the empty-module fallback of `_evaluate_path` still resolves
`Name` in the declaring namespace itself. -/
theorem lazy_path_resolution (n : Nat) (rest base : List Char)
    (hrest : startsWithDot rest = false) :
    (_get_modules (List.replicate n '.' ++ rest) base =
      if n = 0 then Except.ok (splitDot rest)
      else if n - 1 > (splitDot base).length then Except.error PyErr.valueError
      else Except.ok (pySliceNeg (splitDot base) (n - 1) ++ splitDot rest))
    ∧ (n = 1 → (∀ c ∈ rest, c ≠ '.') →
        _evaluate_path (List.replicate n '.' ++ rest) base =
          Except.ok (base, rest)) := by
  have hmain : ∀ m : Nat,
      _get_modules (List.replicate (m + 1) '.' ++ rest) base =
        if m > (splitDot base).length then Except.error PyErr.valueError
        else Except.ok (pySliceNeg (splitDot base) m ++ splitDot rest) := by
    intro m
    have hl : lstripDot (List.replicate (m + 1) '.' ++ rest) = rest :=
      lstripDot_replicate (m + 1) rest hrest
    have hsd : startsWithDot (List.replicate (m + 1) '.' ++ rest) = true := by
      simp [List.replicate_succ, startsWithDot]
    have hlen : (List.replicate (m + 1) '.' ++ rest).length - rest.length - 1 = m := by
      simp
    simp only [_get_modules, hl, hsd, Bool.not_true, Bool.false_eq_true,
      if_false, hlen]
  constructor
  · cases n with
    | zero =>
      have h0 : lstripDot rest = rest := lstripDot_no_lead rest hrest
      simp [_get_modules, h0, hrest]
    | succ m =>
      have h := hmain m
      simpa using h
  · intro hn hnd
    subst hn
    have hsplit : splitDot rest = [rest] := splitDot_no_dot rest hnd
    have hg : _get_modules ('.' :: rest) base = Except.ok [rest] := by
      have h := hmain 0
      simpa [pySliceNeg, hsplit, List.replicate_succ] using h
    simp [_evaluate_path, hg, joinDot]

/-- Witness for C5 (amended): `..Name` from `pkg.mod` strips one trailing
segment and keeps `pkg`; `.Name` from `pkg.mod` resolves `Name` in
`pkg.mod` itself. -/
theorem lazy_path_resolution_witness :
    _get_modules "..Name".toList "pkg.mod".toList =
      Except.ok ["pkg".toList, "Name".toList]
    ∧ _evaluate_path ".Name".toList "pkg.mod".toList =
      Except.ok ("pkg.mod".toList, "Name".toList) := by
  constructor
  · exact Eq.trans
      (Eq.trans (by rfl)
        ((lazy_path_resolution 2 "Name".toList "pkg.mod".toList rfl).1))
      (by rfl)
  · exact Eq.trans (by rfl)
      ((lazy_path_resolution 1 "Name".toList "pkg.mod".toList rfl).2 rfl
        (by decide))

/-! ## `IntField.parse_value` (C6) -/

/-- The whitespace Python's `int(str)` strips (`str.strip()`, i.e. the
characters `str.isspace()` accepts): the ASCII controls and space, the
information separators 0x1C-0x1F, NEL, NBSP, and the Unicode space
separators. -/
def isWs (c : Char) : Bool :=
  let n := c.toNat
  (decide (0x09 ≤ n) && decide (n ≤ 0x0D))
    || (decide (0x1C ≤ n) && decide (n ≤ 0x1F))
    || n == 0x20 || n == 0x85 || n == 0xA0 || n == 0x1680
    || (decide (0x2000 ≤ n) && decide (n ≤ 0x200A))
    || n == 0x2028 || n == 0x2029 || n == 0x202F || n == 0x205F
    || n == 0x3000

/-- Strip leading whitespace. -/
def stripLeadWs : List Char → List Char
  | [] => []
  | c :: rest => if isWs c then stripLeadWs rest else c :: rest

/-- Strip whitespace from both ends. -/
def stripWs (s : List Char) : List Char :=
  ((stripLeadWs (stripLeadWs s).reverse)).reverse

/-- A decimal digit's value. -/
def readDigit? (c : Char) : Option Nat :=
  if c = '0' then some 0 else if c = '1' then some 1
  else if c = '2' then some 2 else if c = '3' then some 3
  else if c = '4' then some 4 else if c = '5' then some 5
  else if c = '6' then some 6 else if c = '7' then some 7
  else if c = '8' then some 8 else if c = '9' then some 9
  else Option.none

/-- Base codepoints of the ten-codepoint Unicode decimal-digit (category
`Nd`) blocks, through Unicode 15 — the digits Python's `int(str)` accepts:
ASCII, Arabic-Indic and Extended, NKo, the Indic scripts, Thai, Lao,
Tibetan, Myanmar (and Shan, Tai Laing), Khmer, Mongolian, Limbu, New Tai
Lue, Tai Tham, Balinese, Sundanese, Lepcha, Ol Chiki, Vai, Saurashtra,
Kayah Li, Javanese, Cham, Meetei Mayek, fullwidth, Osmanya, Hanifi
Rohingya, Brahmi, Sora Sompeng, Chakma, Sharada, Khudawadi, Newa, Tirhuta,
Modi, Takri, Ahom, Warang Citi, Dives Akuru, Bhaiksuki, Masaram and
Gunjala Gondi, Kawi, Mro, Tangsa, Pahawh Hmong, the mathematical digit
styles, Nyiakeng Puachue Hmong, Wancho, Nag Mundari, Adlam, and the
segmented digits. -/
def ndBases : List Nat :=
  [0x0030, 0x0660, 0x06F0, 0x07C0, 0x0966, 0x09E6, 0x0A66, 0x0AE6,
   0x0B66, 0x0BE6, 0x0C66, 0x0CE6, 0x0D66, 0x0DE6, 0x0E50, 0x0ED0,
   0x0F20, 0x1040, 0x1090, 0x17E0, 0x1810, 0x1946, 0x19D0, 0x1A80,
   0x1A90, 0x1B50, 0x1BB0, 0x1C40, 0x1C50, 0xA620, 0xA8D0, 0xA900,
   0xA9D0, 0xA9F0, 0xAA50, 0xABF0, 0xFF10,
   0x104A0, 0x10D30, 0x11066, 0x110F0, 0x11136, 0x111D0, 0x112F0,
   0x11450, 0x114D0, 0x11650, 0x116C0, 0x11730, 0x118E0, 0x11950,
   0x11C50, 0x11D50, 0x11DA0, 0x11F50, 0x16A60, 0x16AC0, 0x16B50,
   0x1D7CE, 0x1D7D8, 0x1D7E2, 0x1D7EC, 0x1D7F6,
   0x1E140, 0x1E2F0, 0x1E4F0, 0x1E950, 0x1FBF0]

/-- The decimal value of a character under `int(str)`: its offset inside
one of the Unicode `Nd` blocks. -/
def pyStrDigit? (c : Char) : Option Nat :=
  let n := c.toNat
  match ndBases.find? (fun b => decide (b ≤ n) && decide (n < b + 10)) with
  | some b => some (n - b)
  | Option.none => Option.none

/-- After an initial digit, the rest of a numeral: digits optionally
grouped by single underscores, each underscore sitting between two digits
(`1_2` is accepted, `1__2`, `1_` are not). -/
def digitsRest : List Char → Nat → Option Nat
  | [], acc => some acc
  | '_' :: rest, acc =>
    match rest with
    | [] => Option.none
    | c :: rest' =>
      match pyStrDigit? c with
      | some d => digitsRest rest' (acc * 10 + d)
      | Option.none => Option.none
  | c :: rest, acc =>
    match pyStrDigit? c with
    | some d => digitsRest rest (acc * 10 + d)
    | Option.none => Option.none

/-- Python `int(s)` for a string: optional surrounding whitespace, optional
sign, then a non-empty run of Unicode decimal digits with optional
single-underscore grouping; anything else — including base prefixes such
as `0x`, which the default base 10 rejects — raises `ValueError`. -/
def pyStrToInt (s : List Char) : Except PyErr Int :=
  let core := fun (ds : List Char) (sign : Int) =>
    match ds with
    | [] => Except.error PyErr.valueError
    | c :: rest =>
      match pyStrDigit? c with
      | Option.none => Except.error PyErr.valueError
      | some d =>
        match digitsRest rest d with
        | some n => Except.ok (sign * (n : Int))
        | Option.none => Except.error PyErr.valueError
  match stripWs s with
  | '+' :: ds => core ds 1
  | '-' :: ds => core ds (-1)
  | ds => core ds 1

/-- The Python builtin `int(x)`: identity on integers, `True`/`False` to
1/0, truncation toward zero for floats (`Int.tdiv`; the float is a
rational here, so the infinity/NaN cases do not arise), string parsing
with `ValueError` on malformed strings — and `TypeError` for every
non-numeric, non-string kind (lists, dicts, `None`, times, models, ...),
which is *not* a `ValueError`. -/
def pyInt : Value → Except PyErr Int
  | Value.int n => Except.ok n
  | Value.bool b => Except.ok (if b then 1 else 0)
  | Value.float q => Except.ok (Int.tdiv q.num (q.den : Int))
  | Value.str s => pyStrToInt s
  | _ => Except.error PyErr.typeError

/-- `IntField.parse_value`: `None` passes through; otherwise `int(parsed)`
inside `try: ... except ValueError: raise BadTypeError(...)` — only
`ValueError` is converted, every other exception propagates. -/
def IntField.parse_value (v : Value) : Except PyErr Value :=
  if v.isNone then Except.ok v
  else
    match pyInt v with
    | Except.ok n => Except.ok (Value.int n)
    | Except.error PyErr.valueError => Except.error (PyErr.badTypeError false)
    | Except.error e => Except.error e

/-- Counterexample to C6 as stated: `int([])` fails with `TypeError`, which
the `except ValueError` handler does not catch, so the native conversion
error surfaces instead of a `BadTypeError` — the claim's "on any cast
failure it raises a BadTypeError" does not hold. -/
theorem intfield_counterexample :
    IntField.parse_value (Value.list []) = Except.error PyErr.typeError
    ∧ PyErr.typeError ≠ PyErr.badTypeError false
    ∧ PyErr.typeError ≠ PyErr.badTypeError true :=
  ⟨rfl, by decide, by decide⟩

/-- Claim C6 (amended): `IntField.parse_value` returns the value cast to an
integer with null passing through as null; cast failures that raise
`ValueError` (malformed strings) are re-raised as `BadTypeError`, while cast
failures that raise `TypeError` (non-numeric, non-string kinds) surface as
the native conversion error. -/
theorem intfield_parse_amended (v : Value) :
    (v.isNone = true → IntField.parse_value v = Except.ok v)
    ∧ (∀ n, v.isNone = false → pyInt v = Except.ok n →
        IntField.parse_value v = Except.ok (Value.int n))
    ∧ (v.isNone = false → pyInt v = Except.error PyErr.valueError →
        IntField.parse_value v = Except.error (PyErr.badTypeError false))
    ∧ (v.isNone = false → pyInt v = Except.error PyErr.typeError →
        IntField.parse_value v = Except.error PyErr.typeError) := by
  refine ⟨?_, ?_, ?_, ?_⟩
  · intro h
    simp [IntField.parse_value, h]
  · intro n h hp
    simp [IntField.parse_value, h, hp]
  · intro h hp
    simp [IntField.parse_value, h, hp]
  · intro h hp
    simp [IntField.parse_value, h, hp]

/-- Witness for C6 (amended): `"42"` and the underscore-grouped `"1_2"`
parse to integers, the float -7/2 truncates toward zero to -3, and the
malformed string `"abc"` becomes a `BadTypeError`. -/
theorem intfield_parse_amended_witness :
    IntField.parse_value (Value.str "42".toList) = Except.ok (Value.int 42)
    ∧ IntField.parse_value (Value.str "1_2".toList) = Except.ok (Value.int 12)
    ∧ IntField.parse_value (Value.float (mkRat (-7) 2)) =
        Except.ok (Value.int (-3))
    ∧ IntField.parse_value (Value.str "abc".toList) =
        Except.error (PyErr.badTypeError false) :=
  ⟨(intfield_parse_amended (Value.str "42".toList)).2.1 42 rfl rfl,
   (intfield_parse_amended (Value.str "1_2".toList)).2.1 12 rfl rfl,
   (intfield_parse_amended (Value.float (mkRat (-7) 2))).2.1 (-3) rfl rfl,
   (intfield_parse_amended (Value.str "abc".toList)).2.2.1 rfl rfl⟩

/-! ## `MapField.get_default_value` (C7) -/

/-- `BaseField.get_default_value`: the configured default when one was set,
else the Python `None`.  `Option.none` models the `NotSet` sentinel
(`self._default if self.has_default else None`). -/
def baseGetDefault (dflt : Option Value) : Value :=
  match dflt with
  | some v => v
  | Option.none => Value.none

/-- The slice of a `MapField`'s configuration that `get_default_value`
consults. -/
structure MapFieldCfg where
  required : Bool
  dflt : Option Value

/-- `MapField.get_default_value`:
`default = super().get_default_value(); if default is None and
self.required: return dict(); return default`. -/
def MapField.get_default_value (f : MapFieldCfg) : Value :=
  let d := baseGetDefault f.dflt
  if d.isNone && f.required then Value.dict [] else d

/-- Claim C7: for a map field with no configured default,
`get_default_value` returns an empty mapping iff the field is required, and
a not-required such field gets null (the configured default, which is null
when absent). -/
theorem mapfield_default (f : MapFieldCfg) (h : f.dflt = Option.none) :
    (MapField.get_default_value f = Value.dict [] ↔ f.required = true)
    ∧ (f.required = false → MapField.get_default_value f = Value.none) := by
  cases hr : f.required <;>
    simp [MapField.get_default_value, baseGetDefault, h, hr, Value.isNone]

/-- Witness for C7 at both required-ness settings. -/
theorem mapfield_default_witness :
    MapField.get_default_value { required := true, dflt := Option.none } =
      Value.dict []
    ∧ MapField.get_default_value { required := false, dflt := Option.none } =
      Value.none :=
  ⟨(mapfield_default { required := true, dflt := Option.none } rfl).1.mpr rfl,
   (mapfield_default { required := false, dflt := Option.none } rfl).2 rfl⟩

/-! ## `ListField` (C8, C10) -/

/-- `isinstance` of a value against one `items_types` entry: builtin types
by runtime type, model classes by class id. -/
def isInstItemOne (v : Value) : ItemType → Bool
  | ItemType.builtin t => isInstOne v t
  | ItemType.model m =>
    match v with
    | Value.model i _ => i = m.id
    | _ => false

/-- `isinstance(value, self.items_types)`. -/
def isInstItem (v : Value) (tys : List ItemType) : Bool :=
  tys.any (isInstItemOne v)

/-- The configuration of a `ListField`.  `itemsTypes` is the tuple produced
by `_assign_types` (the empty tuple when `items_types=None` was passed);
string entries would be `_LazyType` placeholders resolved by
`_finish_initialization`, which the claims below never leave unresolved, so
entries are already concrete here.  `dflt = Option.none` is the `NotSet`
sentinel. -/
structure ListFieldModel where
  required : Bool
  nullable : Bool
  validators : List Check
  itemsTypes : List ItemType
  itemValidators : List Check
  dflt : Option Value
  omitEmpty : Bool

/-- The `BaseField` view of a list field: class attribute
`types = (list, tuple)`. -/
def ListFieldModel.toBase (f : ListFieldModel) : BaseField :=
  { types := some [PyTy.listTy, PyTy.tupleTy]
    required := f.required
    nullable := f.nullable
    validators := f.validators }

/-- `ListField.get_default_value`: the base default, with `None` replaced by
`ModelCollection(self)` — an empty list subclass, modelled as the empty
list. -/
def ListField.get_default_value (f : ListFieldModel) : Value :=
  let d := baseGetDefault f.dflt
  if d.isNone then Value.list [] else d

/-- `ListField._cast_value`: an element already of an item type passes
through; a dict element goes through polymorphic resolution against the
item types and construction; anything else is a `BadTypeError` tagged as a
list-context violation. -/
def ListField._cast_value (f : ListFieldModel) (v : Value) :
    Except PyErr Value :=
  if isInstItem v f.itemsTypes then Except.ok v
  else
    match v with
    | Value.dict kvs =>
      match _get_embed_type (kvs.map (fun p => p.1)) f.itemsTypes with
      | Except.error e => Except.error e
      | Except.ok it => constructModel it kvs
    | _ => Except.error (PyErr.badTypeError true)

/-- The comprehension `[self._cast_value(value) for value in values]`:
left to right, the first raise aborts the whole comprehension. -/
def castItems (f : ListFieldModel) : List Value → Except PyErr (List Value)
  | [] => Except.ok []
  | x :: xs =>
    match ListField._cast_value f x with
    | Except.error e => Except.error e
    | Except.ok y =>
      match castItems f xs with
      | Except.error e => Except.error e
      | Except.ok ys => Except.ok (y :: ys)

/-- `ListField.parse_value`: falsy input yields the field default; a truthy
non-list passes through unchanged; each element of a non-empty list is cast
in order (the comprehension stops at the first raise). -/
def ListField.parse_value (f : ListFieldModel) (values : Value) :
    Except PyErr Value :=
  let result := ListField.get_default_value f
  if !pyTruthy values then Except.ok result
  else if !isInst values [PyTy.listTy] then Except.ok values
  else
    match values with
    | Value.list xs =>
      match castItems f xs with
      | Except.error e => Except.error e
      | Except.ok ys => Except.ok (Value.list ys)
    | _ => Except.ok values

/-- `ListField.validate_single_value`: the item validators run first; the
item-type membership check is skipped entirely when no item types were
declared. -/
def ListField.validate_single_value (f : ListFieldModel) (v : Value) :
    Except PyErr Unit :=
  match runChecks f.itemValidators v with
  | Except.error e => Except.error e
  | Except.ok _ =>
    if f.itemsTypes.length = 0 then Except.ok ()
    else if isInstItem v f.itemsTypes then Except.ok ()
    else Except.error (PyErr.badTypeError true)

/-- `for item in value: self.validate_single_value(item)`. -/
def validateItems (f : ListFieldModel) : List Value → Except PyErr Unit
  | [] => Except.ok ()
  | x :: xs =>
    match ListField.validate_single_value f x with
    | Except.error e => Except.error e
    | Except.ok _ => validateItems f xs

/-- `ListField.validate`: base validation of the whole value, then each
element through `validate_single_value`.  After the base type check the
value is a list, a tuple, or `None`; iterating `None` raises `TypeError`
(no other kind reaches the loop). -/
def ListField.validate (f : ListFieldModel) (v : Value) : Except PyErr Unit :=
  match BaseField.validate f.toBase v with
  | Except.error e => Except.error e
  | Except.ok _ =>
    match v with
    | Value.list xs => validateItems f xs
    | Value.tuple xs => validateItems f xs
    | _ => Except.error PyErr.typeError

/-- `ListField.__init__`: `_assign_types` and the item-validator setup run
first, `BaseField.__init__` runs with the caller-supplied `required` flag —
validating a configured default under that flag through the overridden
`validate` — and only afterwards is `self.required = False` force-assigned.
(The base initializer's `name` validation is outside the model.) -/
def ListField.initCfg (itemsTypes : List ItemType)
    (itemValidators : List Check) (omitEmpty : Bool)
    (requiredArg nullable : Bool) (validators : List Check)
    (dflt : Option Value) : ListFieldModel :=
  { required := requiredArg, nullable := nullable, validators := validators
    itemsTypes := itemsTypes, itemValidators := itemValidators
    dflt := dflt, omitEmpty := omitEmpty }

def ListField.init (itemsTypes : List ItemType) (itemValidators : List Check)
    (omitEmpty : Bool) (requiredArg nullable : Bool)
    (validators : List Check) (dflt : Option Value) :
    Except PyErr ListFieldModel :=
  match dflt with
  | Option.none =>
    Except.ok { ListField.initCfg itemsTypes itemValidators omitEmpty
      requiredArg nullable validators dflt with required := false }
  | some d =>
    match ListField.validate (ListField.initCfg itemsTypes itemValidators
        omitEmpty requiredArg nullable validators dflt) d with
    | Except.error e => Except.error e
    | Except.ok _ =>
      Except.ok { ListField.initCfg itemsTypes itemValidators omitEmpty
        requiredArg nullable validators dflt with required := false }

/-- Claim C8: every successfully constructed list field has `required =
false` regardless of the `required` argument, so its required-ness check
can never raise. -/
theorem listfield_never_required (itemsTypes : List ItemType)
    (itemValidators : List Check) (omitEmpty requiredArg nullable : Bool)
    (validators : List Check) (dflt : Option Value) (f : ListFieldModel)
    (h : ListField.init itemsTypes itemValidators omitEmpty requiredArg
        nullable validators dflt = Except.ok f) :
    f.required = false
    ∧ ∀ v, _check_against_required f.toBase v = Except.ok () := by
  have hreq : f.required = false := by
    unfold ListField.init at h
    cases dflt with
    | none =>
      simp at h
      subst h
      rfl
    | some d =>
      dsimp only at h
      cases hv : ListField.validate (ListField.initCfg itemsTypes
          itemValidators omitEmpty requiredArg nullable validators
          (some d)) d with
      | error e =>
        rw [hv] at h
        cases h
      | ok u =>
        rw [hv] at h
        simp at h
        subst h
        rfl
  refine ⟨hreq, ?_⟩
  intro v
  simp [_check_against_required, ListFieldModel.toBase, hreq]

/-- The list field produced by `ListField.init` with `required=True` and no
item types, shared by the C8 and C10 witnesses. -/
def listFieldEx : ListFieldModel :=
  { required := false, nullable := false, validators := []
    itemsTypes := [], itemValidators := [], dflt := Option.none
    omitEmpty := false }

/-- Witness for C8: constructing with `required=True` still yields a field
whose flag is cleared and whose required check accepts null. -/
theorem listfield_never_required_witness :
    listFieldEx.required = false
    ∧ _check_against_required listFieldEx.toBase Value.none = Except.ok () :=
  ⟨(listfield_never_required [] [] false true false [] Option.none
      listFieldEx rfl).1,
   (listfield_never_required [] [] false true false [] Option.none
      listFieldEx rfl).2 Value.none⟩

/-- Claim C10: for a list field with no declared item types, `parse_value`
of any non-empty list raises — a leading dict element fails inside
polymorphic resolution (`models[0]` on the empty candidate tuple raises
`IndexError`), and a leading non-dict element raises a `BadTypeError`
tagged as a list-context violation (membership in the empty type tuple
never holds) — even though such a field's `validate_single_value` skips the
per-item type check entirely and reduces to the item validators alone. -/
theorem listfield_no_itemtypes (f : ListFieldModel)
    (hf : f.itemsTypes = []) (x : Value) (xs : List Value) :
    (∀ kvs, x = Value.dict kvs →
      ListField.parse_value f (Value.list (x :: xs)) =
        Except.error PyErr.indexError)
    ∧ ((∀ kvs, x ≠ Value.dict kvs) →
      ListField.parse_value f (Value.list (x :: xs)) =
        Except.error (PyErr.badTypeError true))
    ∧ (∀ v, ListField.validate_single_value f v =
        runChecks f.itemValidators v) := by
  have hnotinst : ∀ y : Value, isInstItem y f.itemsTypes = false := by
    intro y
    simp [isInstItem, hf]
  refine ⟨?_, ?_, ?_⟩
  · intro kvs hx
    subst hx
    simp [ListField.parse_value, pyTruthy, isInst, isInstOne, Value.pyTy,
      castItems, ListField._cast_value, isInstItem, hnotinst,
      _get_embed_type, hf]
  · intro hx
    have hcast : ListField._cast_value f x = Except.error (PyErr.badTypeError true) := by
      unfold ListField._cast_value
      rw [hnotinst x]
      cases x with
      | dict kvs => exact absurd rfl (hx kvs)
      | none => rfl
      | bool b => rfl
      | int n => rfl
      | float q => rfl
      | str s => rfl
      | list ys => rfl
      | tuple ys => rfl
      | time t => rfl
      | date d => rfl
      | datetime dt => rfl
      | model i p => rfl
    simp [ListField.parse_value, pyTruthy, isInst, isInstOne, Value.pyTy,
      castItems, hcast]
  · intro v
    unfold ListField.validate_single_value
    rcases hr : runChecks f.itemValidators v with e | u
    · rfl
    · simp [hf]

/-- Witness for C10: a singleton dict element fails with `IndexError`, a
singleton integer element with a list-tagged `BadTypeError`, and
`validate_single_value` reduces to the (empty) item validators. -/
theorem listfield_no_itemtypes_witness :
    ListField.parse_value listFieldEx (Value.list [Value.dict []]) =
      Except.error PyErr.indexError
    ∧ ListField.parse_value listFieldEx (Value.list [Value.int 7]) =
      Except.error (PyErr.badTypeError true)
    ∧ ListField.validate_single_value listFieldEx (Value.int 7) =
      runChecks listFieldEx.itemValidators (Value.int 7) :=
  ⟨(listfield_no_itemtypes listFieldEx rfl (Value.dict []) []).1 [] rfl,
   (listfield_no_itemtypes listFieldEx rfl (Value.int 7) []).2.1
      (fun _ h => nomatch h),
   (listfield_no_itemtypes listFieldEx rfl (Value.int 7) []).2.2
      (Value.int 7)⟩

/-! ## ISO-8601 rendering and parsing for the time/date fields (C9)

`TimeField`/`DateField`/`DateTimeField` delegate serialization to
`isoformat()`/`strftime('%Y-%m-%d')` and parsing to `dateutil.parser.parse`.
Both live outside the repository; they are modelled here on the string
shapes the serializers emit — fixed-width decimal fields — with
out-of-range components and other strings mapping to `ValueError`, as the
external parser raises.  (`dateutil`'s wider fuzzy grammar, sub-minute UTC
offsets and per-month day limits are outside the model; no claim depends on
them.) -/

/-- A decimal digit rendered as a character. -/
def digitChar : Nat → Char
  | 0 => '0'
  | 1 => '1'
  | 2 => '2'
  | 3 => '3'
  | 4 => '4'
  | 5 => '5'
  | 6 => '6'
  | 7 => '7'
  | 8 => '8'
  | _ => '9'

theorem readDigit_digitChar (d : Nat) (h : d < 10) :
    readDigit? (digitChar d) = some d := by
  interval_cases d <;> rfl

/-- A two-digit zero-padded field. -/
def pad2 (n : Nat) : List Char := [digitChar (n / 10), digitChar (n % 10)]

/-- A four-digit zero-padded field (the `%Y` year). -/
def pad4 (n : Nat) : List Char := pad2 (n / 100) ++ pad2 (n % 100)

/-- A six-digit zero-padded field (microseconds). -/
def pad6 (n : Nat) : List Char :=
  pad2 (n / 10000) ++ pad2 (n / 100 % 100) ++ pad2 (n % 100)

/-- Read exactly two digits. -/
def read2 : List Char → Option (Nat × List Char)
  | c1 :: c2 :: rest =>
    match readDigit? c1, readDigit? c2 with
    | some a, some b => some (10 * a + b, rest)
    | _, _ => Option.none
  | _ => Option.none

/-- Read exactly four digits. -/
def read4 (s : List Char) : Option (Nat × List Char) :=
  match read2 s with
  | some (a, s1) =>
    match read2 s1 with
    | some (b, s2) => some (a * 100 + b, s2)
    | Option.none => Option.none
  | Option.none => Option.none

/-- Read exactly six digits. -/
def read6 (s : List Char) : Option (Nat × List Char) :=
  match read2 s with
  | some (a, s1) =>
    match read2 s1 with
    | some (b, s2) =>
      match read2 s2 with
      | some (c, s3) => some (a * 10000 + b * 100 + c, s3)
      | Option.none => Option.none
    | Option.none => Option.none
  | Option.none => Option.none

theorem read2_pad2 (n : Nat) (h : n < 100) (rest : List Char) :
    read2 (pad2 n ++ rest) = some (n, rest) := by
  have h1 : n / 10 < 10 := by omega
  have h2 : n % 10 < 10 := by omega
  simp [pad2, read2, readDigit_digitChar _ h1, readDigit_digitChar _ h2]
  omega

theorem read4_pad4 (n : Nat) (h : n < 10000) (rest : List Char) :
    read4 (pad4 n ++ rest) = some (n, rest) := by
  have e1 := read2_pad2 (n / 100) (by omega) (pad2 (n % 100) ++ rest)
  have e2 := read2_pad2 (n % 100) (by omega) rest
  simp [pad4, read4, List.append_assoc, e1, e2]
  omega

theorem read6_pad6 (n : Nat) (h : n < 1000000) (rest : List Char) :
    read6 (pad6 n ++ rest) = some (n, rest) := by
  have e1 := read2_pad2 (n / 10000) (by omega)
    (pad2 (n / 100 % 100) ++ (pad2 (n % 100) ++ rest))
  have e2 := read2_pad2 (n / 100 % 100) (by omega) (pad2 (n % 100) ++ rest)
  have e3 := read2_pad2 (n % 100) (by omega) rest
  simp [pad6, read6, List.append_assoc, e1, e2, e3]
  omega

/-- The `±HH:MM` UTC-offset suffix of `isoformat()` for an aware value
(empty for a naive one). -/
def isoOffset : Option Int → List Char
  | Option.none => []
  | some off =>
    (if 0 ≤ off then '+' else '-') ::
      (pad2 (off.natAbs / 60) ++ ':' :: pad2 (off.natAbs % 60))

/-- Read a `HH:MM` pair to minutes, consuming the whole remaining input. -/
def readHM (s : List Char) : Option Nat :=
  match read2 s with
  | some (hh, ':' :: s2) =>
    match read2 s2 with
    | some (mm, []) => if hh < 24 ∧ mm < 60 then some (hh * 60 + mm) else Option.none
    | _ => Option.none
  | _ => Option.none

/-- Read the optional trailing UTC offset, consuming to the end. -/
def readOffsetEnd : List Char → Option (Option Int)
  | [] => some Option.none
  | '+' :: rest =>
    match readHM rest with
    | some m => some (some (m : Int))
    | Option.none => Option.none
  | '-' :: rest =>
    match readHM rest with
    | some m => some (some (-(m : Int)))
    | Option.none => Option.none
  | _ => Option.none

theorem readOffsetEnd_iso (tz : Option Int)
    (h : ∀ off, tz = some off → off.natAbs < 1440) :
    readOffsetEnd (isoOffset tz) = some tz := by
  cases tz with
  | none => rfl
  | some off =>
    have hoff : off.natAbs < 1440 := h off rfl
    have hh : off.natAbs / 60 < 24 := by omega
    have hm : off.natAbs % 60 < 60 := by omega
    have e1 := read2_pad2 (off.natAbs / 60) (by omega)
      (':' :: pad2 (off.natAbs % 60))
    have e2 := read2_pad2 (off.natAbs % 60) (by omega) []
    simp only [List.append_nil] at e2
    have hdm := Nat.div_add_mod off.natAbs 60
    by_cases hsgn : 0 ≤ off
    · simp [isoOffset, hsgn, readOffsetEnd, readHM, e1, e2, hh, hm]
      simp only [Int.abs_eq_natAbs]
      omega
    · simp [isoOffset, hsgn, readOffsetEnd, readHM, e1, e2, hh, hm]
      simp only [Int.abs_eq_natAbs]
      omega

/-- `time.isoformat()` with the default `timespec='auto'`: `HH:MM:SS`, the
`.ffffff` fraction exactly when the microsecond field is non-zero, then the
UTC offset when the value is aware. -/
def isoTime (t : PyTime) : List Char :=
  pad2 t.hour ++ (':' :: (pad2 t.minute ++ (':' :: (pad2 t.second ++
    ((if t.micro = 0 then [] else '.' :: pad6 t.micro) ++ isoOffset t.tzMin)))))

/-- Read the optional six-digit fraction. -/
def readMicro : List Char → Option (Nat × List Char)
  | '.' :: rest =>
    match read6 rest with
    | some (us, s) => some (us, s)
    | Option.none => Option.none
  | s => some (0, s)

/-- Parse the `HH:MM:SS[.ffffff][±HH:MM]` shape (used both for bare times
and for the time part of a datetime), with the range checks the external
parser applies. -/
def parseTimeTail (s : List Char) : Option PyTime :=
  match read2 s with
  | some (h, ':' :: s2) =>
    match read2 s2 with
    | some (m, ':' :: s4) =>
      match read2 s4 with
      | some (sec, s5) =>
        match readMicro s5 with
        | some (us, s6) =>
          match readOffsetEnd s6 with
          | some tz =>
            if h < 24 ∧ m < 60 ∧ sec < 60 ∧ us < 1000000 then
              some ⟨h, m, sec, us, tz⟩
            else Option.none
          | Option.none => Option.none
        | Option.none => Option.none
      | Option.none => Option.none
    | _ => Option.none
  | _ => Option.none

/-- The ranges Python's `datetime.time` guarantees (offsets strictly within
a day, in whole minutes in this model). -/
def PyTime.wf (t : PyTime) : Prop :=
  t.hour < 24 ∧ t.minute < 60 ∧ t.second < 60 ∧ t.micro < 1000000 ∧
    ∀ off, t.tzMin = some off → off.natAbs < 1440

theorem parseTimeTail_iso (t : PyTime) (h : t.wf) :
    parseTimeTail (isoTime t) = some t := by
  obtain ⟨hh, hm, hs, hu, htz⟩ := h
  have e1 := read2_pad2 t.hour (by omega)
    (':' :: (pad2 t.minute ++ (':' :: (pad2 t.second ++
      ((if t.micro = 0 then [] else '.' :: pad6 t.micro) ++ isoOffset t.tzMin)))))
  have e2 := read2_pad2 t.minute (by omega)
    (':' :: (pad2 t.second ++
      ((if t.micro = 0 then [] else '.' :: pad6 t.micro) ++ isoOffset t.tzMin)))
  have e3 := read2_pad2 t.second (by omega)
    ((if t.micro = 0 then [] else '.' :: pad6 t.micro) ++ isoOffset t.tzMin)
  have e4 : readMicro ((if t.micro = 0 then [] else '.' :: pad6 t.micro)
      ++ isoOffset t.tzMin) = some (t.micro, isoOffset t.tzMin) := by
    by_cases h0 : t.micro = 0
    · rw [if_pos h0, h0]
      simp only [List.nil_append]
      cases htz' : t.tzMin with
      | none => rfl
      | some off =>
        by_cases hsgn : 0 ≤ off <;> simp [isoOffset, hsgn, readMicro]
    · rw [if_neg h0]
      simp [readMicro, read6_pad6 t.micro (by omega) (isoOffset t.tzMin)]
  have e5 := readOffsetEnd_iso t.tzMin htz
  simp [parseTimeTail, isoTime, e1, e2, e3, e4, e5, hh, hm, hs, hu]

/-- `strftime('%Y-%m-%d')` — `DateField.default_format` — with the year
zero-padded to four digits. -/
def isoDate (d : PyDate) : List Char :=
  pad4 d.year ++ ('-' :: (pad2 d.month ++ ('-' :: pad2 d.day)))

/-- Parse the leading `YYYY-MM-DD` of a string, returning the rest. -/
def readDatePart (s : List Char) : Option (PyDate × List Char) :=
  match read4 s with
  | some (y, '-' :: s1) =>
    match read2 s1 with
    | some (mo, '-' :: s2) =>
      match read2 s2 with
      | some (d, s3) =>
        if 1 ≤ y ∧ 1 ≤ mo ∧ mo ≤ 12 ∧ 1 ≤ d ∧ d ≤ 31 then
          some (⟨y, mo, d⟩, s3)
        else Option.none
      | Option.none => Option.none
    | _ => Option.none
  | _ => Option.none

/-- The ranges Python's `datetime.date` guarantees (per-month day limits
are left loose; the hypothesis is only ever used with real dates). -/
def PyDate.wf (d : PyDate) : Prop :=
  1 ≤ d.year ∧ d.year < 10000 ∧ 1 ≤ d.month ∧ d.month ≤ 12
    ∧ 1 ≤ d.day ∧ d.day ≤ 31

theorem readDatePart_iso (d : PyDate) (h : d.wf) (rest : List Char) :
    readDatePart (isoDate d ++ rest) = some (d, rest) := by
  obtain ⟨h1, h2, h3, h4, h5, h6⟩ := h
  have e0 : isoDate d ++ rest =
      pad4 d.year ++ ('-' :: (pad2 d.month ++ ('-' :: (pad2 d.day ++ rest)))) := by
    simp [isoDate]
  have e1 := read4_pad4 d.year (by omega)
    ('-' :: (pad2 d.month ++ ('-' :: (pad2 d.day ++ rest))))
  have e2 := read2_pad2 d.month (by omega) ('-' :: (pad2 d.day ++ rest))
  have e3 := read2_pad2 d.day (by omega) rest
  rw [e0]
  simp [readDatePart, e1, e2, e3, h1, h3, h4, h5, h6]

/-- `datetime.isoformat()` (default separator `'T'`). -/
def isoDateTime (dt : PyDateTime) : List Char :=
  isoDate dt.date ++ ('T' :: isoTime dt.time)

/-! ## The scalar fields and the round-trip law (C9) -/

/-- The seven scalar field kinds of the claim. -/
inductive ScalarKind where
  | stringK
  | intK
  | floatK
  | boolK
  | timeK
  | dateK
  | datetimeK
deriving DecidableEq, Repr

/-- The class attribute `types` of each scalar field
(`six.string_types = (str,)` on Python 3). -/
def scalarTypes : ScalarKind → List PyTy
  | ScalarKind.stringK => [PyTy.strTy]
  | ScalarKind.intK => [PyTy.intTy]
  | ScalarKind.floatK => [PyTy.floatTy, PyTy.intTy]
  | ScalarKind.boolK => [PyTy.boolTy]
  | ScalarKind.timeK => [PyTy.timeTy]
  | ScalarKind.dateK => [PyTy.dateTy]
  | ScalarKind.datetimeK => [PyTy.datetimeTy]

/-- `to_struct` of each scalar field constructed without a format string:
the identity of `BaseField.to_struct` for string/int/float/bool;
`value.isoformat()` for time and datetime; `value.strftime('%Y-%m-%d')` for
date (which on a datetime renders just its date part).  A date/time
serializer applied to a value without the needed method raises
`AttributeError`. -/
def scalarToStruct : ScalarKind → Value → Except PyErr Value
  | ScalarKind.stringK, v => Except.ok v
  | ScalarKind.intK, v => Except.ok v
  | ScalarKind.floatK, v => Except.ok v
  | ScalarKind.boolK, v => Except.ok v
  | ScalarKind.timeK, v =>
    match v with
    | Value.time t => Except.ok (Value.str (isoTime t))
    | Value.datetime dt => Except.ok (Value.str (isoDateTime dt))
    | _ => Except.error PyErr.attributeError
  | ScalarKind.dateK, v =>
    match v with
    | Value.date d => Except.ok (Value.str (isoDate d))
    | Value.datetime dt => Except.ok (Value.str (isoDate dt.date))
    | _ => Except.error PyErr.attributeError
  | ScalarKind.datetimeK, v =>
    match v with
    | Value.datetime dt => Except.ok (Value.str (isoDateTime dt))
    | _ => Except.error PyErr.attributeError

/-- `dateutil.parser.parse(s).timetz()` on the strings `TimeField` emits. -/
def parseTimeStr (s : List Char) : Except PyErr Value :=
  match parseTimeTail s with
  | some t => Except.ok (Value.time t)
  | Option.none => Except.error PyErr.valueError

/-- `dateutil.parser.parse(s).date()` on the strings `DateField` emits. -/
def parseDateStr (s : List Char) : Except PyErr Value :=
  match readDatePart s with
  | some (d, []) => Except.ok (Value.date d)
  | _ => Except.error PyErr.valueError

/-- `dateutil.parser.parse(s)` on the strings `DateTimeField` emits. -/
def parseDateTimeStr (s : List Char) : Except PyErr Value :=
  match readDatePart s with
  | some (d, 'T' :: rest) =>
    match parseTimeTail rest with
    | some t => Except.ok (Value.datetime ⟨d, t⟩)
    | Option.none => Except.error PyErr.valueError
  | _ => Except.error PyErr.valueError

/-- `parse_value` of each scalar field: the identity of the base class for
string and float (no override); `IntField.parse_value`;
`BoolField.parse_value` (`bool(parsed)` on non-null); `TimeField`/`DateField`
pass null and already-typed values through (`isinstance(value,
datetime.date)` admits datetimes) and hand strings to the external parser,
which raises `TypeError` on non-string input; `DateTimeField` passes
datetimes through, parses truthy values, and maps falsy ones to null. -/
def scalarParse : ScalarKind → Value → Except PyErr Value
  | ScalarKind.stringK, v => Except.ok v
  | ScalarKind.floatK, v => Except.ok v
  | ScalarKind.intK, v => IntField.parse_value v
  | ScalarKind.boolK, v =>
    if v.isNone then Except.ok Value.none
    else Except.ok (Value.bool (pyTruthy v))
  | ScalarKind.timeK, v =>
    if v.isNone then Except.ok v
    else
      match v with
      | Value.time t => Except.ok (Value.time t)
      | Value.str s => parseTimeStr s
      | _ => Except.error PyErr.typeError
  | ScalarKind.dateK, v =>
    if v.isNone then Except.ok v
    else if isInst v [PyTy.dateTy] then Except.ok v
    else
      match v with
      | Value.str s => parseDateStr s
      | _ => Except.error PyErr.typeError
  | ScalarKind.datetimeK, v =>
    if isInst v [PyTy.datetimeTy] then Except.ok v
    else if pyTruthy v then
      match v with
      | Value.str s => parseDateTimeStr s
      | _ => Except.error PyErr.typeError
    else Except.ok Value.none

/-- Days since 1970-01-01 of a proleptic-Gregorian civil date (the calendar
arithmetic Python's `datetime` uses), via the standard era decomposition. -/
def daysFromCivil (y m d : Nat) : Int :=
  let y' : Int := (y : Int) - (if m ≤ 2 then 1 else 0)
  let era : Int := (if 0 ≤ y' then y' else y' - 399) / 400
  let yoe : Int := y' - era * 400
  let mp : Int := ((m : Int) + 9) % 12
  let doy : Int := (153 * mp + 2) / 5 + (d : Int) - 1
  let doe : Int := yoe * 365 + yoe / 4 - yoe / 100 + doy
  era * 146097 + doe - 719468

/-- Microseconds of day shifted by a UTC offset in minutes. -/
def timeInstant (t : PyTime) (off : Int) : Int :=
  (((t.hour * 3600 + t.minute * 60 + t.second : Nat) : Int) * 1000000
    + (t.micro : Int)) - off * 60000000

/-- Python `==` on `datetime.time`: naive values compare by fields, aware
values by offset-adjusted instant, and a naive value never equals an aware
one. -/
def pyTimeEq (a b : PyTime) : Bool :=
  match a.tzMin, b.tzMin with
  | Option.none, Option.none => a == b
  | some x, some y => timeInstant a x == timeInstant b y
  | _, _ => false

/-- Python `==` on `datetime.datetime`, by full instant for aware values. -/
def pyDateTimeEq (a b : PyDateTime) : Bool :=
  match a.time.tzMin, b.time.tzMin with
  | Option.none, Option.none => a == b
  | some x, some y =>
    daysFromCivil a.date.year a.date.month a.date.day * 86400000000
        + timeInstant a.time x
      == daysFromCivil b.date.year b.date.month b.date.day * 86400000000
        + timeInstant b.time y
  | _, _ => false

mutual

/-- The Python `==` operator on the modelled values: numeric kinds compare
by value across `bool`/`int`/`float`; a plain `date` never equals a
`datetime` (CPython's `datetime.__eq__` returns `False` for a non-datetime
`date`); aware time/datetime values compare by instant; containers compare
elementwise.  (Model instances are compared structurally; the model base
class's equality is outside the claims.) -/
def pyEq : Value → Value → Bool
  | Value.none, Value.none => true
  | Value.bool a, Value.bool b => a == b
  | Value.bool a, Value.int n => (if a then (1 : Int) else 0) == n
  | Value.int n, Value.bool b => n == (if b then (1 : Int) else 0)
  | Value.bool a, Value.float q => (if a then (1 : Rat) else 0) == q
  | Value.float q, Value.bool b => q == (if b then (1 : Rat) else 0)
  | Value.int a, Value.int b => a == b
  | Value.int a, Value.float q => (a : Rat) == q
  | Value.float q, Value.int b => q == (b : Rat)
  | Value.float a, Value.float b => a == b
  | Value.str a, Value.str b => a == b
  | Value.time a, Value.time b => pyTimeEq a b
  | Value.date a, Value.date b => a == b
  | Value.datetime a, Value.datetime b => pyDateTimeEq a b
  | Value.list as, Value.list bs => pyEqList as bs
  | Value.tuple as, Value.tuple bs => pyEqList as bs
  | Value.dict as, Value.dict bs => pyEqKVs as bs
  | Value.model i as, Value.model j bs => i == j && pyEqKVs as bs
  | _, _ => false

/-- Elementwise Python `==` on sequences. -/
def pyEqList : List Value → List Value → Bool
  | [], [] => true
  | a :: as, b :: bs => pyEq a b && pyEqList as bs
  | _, _ => false

/-- Pairwise Python `==` on key/value lists. -/
def pyEqKVs : List (List Char × Value) → List (List Char × Value) → Bool
  | [], [] => true
  | (k1, v1) :: as, (k2, v2) :: bs => k1 == k2 && pyEq v1 v2 && pyEqKVs as bs
  | _, _ => false

end

/-- Well-formedness of the date/time payloads (trivially true elsewhere);
every value a real Python program holds satisfies it. -/
def scalarWf : Value → Prop
  | Value.time t => t.wf
  | Value.date d => d.wf
  | Value.datetime dt => dt.date.wf ∧ dt.time.wf
  | _ => True

theorem pyTimeEq_refl (t : PyTime) : pyTimeEq t t = true := by
  unfold pyTimeEq
  cases t.tzMin <;> simp

theorem pyDateTimeEq_refl (dt : PyDateTime) : pyDateTimeEq dt dt = true := by
  unfold pyDateTimeEq
  cases dt.time.tzMin <;> simp

/-- The concrete datetime used in the C9 counterexample. -/
def dtCounter : PyDateTime :=
  { date := { year := 2021, month := 1, day := 2 }
    time := { hour := 3, minute := 4, second := 5, micro := 0
              tzMin := Option.none } }

/-- Counterexample to C9 as stated: `datetime.datetime` is a subclass of
`datetime.date`, so a datetime belongs to `DateField`'s accepted types; but
`to_struct` renders only its date part and `parse_value` of that string
returns a plain `date`, which Python `==` never considers equal to a
`datetime`. -/
theorem scalar_roundtrip_counterexample :
    isInst (Value.datetime dtCounter) (scalarTypes ScalarKind.dateK) = true
    ∧ scalarToStruct ScalarKind.dateK (Value.datetime dtCounter) =
        Except.ok (Value.str "2021-01-02".toList)
    ∧ scalarParse ScalarKind.dateK (Value.str "2021-01-02".toList) =
        Except.ok (Value.date { year := 2021, month := 1, day := 2 })
    ∧ pyEq (Value.date { year := 2021, month := 1, day := 2 })
        (Value.datetime dtCounter) = false :=
  ⟨rfl, rfl, rfl, rfl⟩

/-- Claim C9 (amended): for every scalar field kind constructed without a
format string and every well-formed value of the field's accepted types,
`parse_value (to_struct v))` is Python-equal to `v` — except that for the
date field the accepted types also admit `datetime` instances (a Python
subclass of `date`), which round-trip to the plain date and are excluded. -/
theorem scalar_roundtrip (k : ScalarKind) (v : Value)
    (hacc : isInst v (scalarTypes k) = true)
    (hwf : scalarWf v)
    (hdt : k = ScalarKind.dateK → v.pyTy ≠ PyTy.datetimeTy) :
    ∃ w v', scalarToStruct k v = Except.ok w
      ∧ scalarParse k w = Except.ok v'
      ∧ pyEq v' v = true := by
  cases k with
  | stringK =>
    cases v <;> simp [isInst, isInstOne, Value.pyTy, scalarTypes] at hacc
    case str s =>
      exact ⟨Value.str s, Value.str s, rfl, rfl, by simp [pyEq]⟩
  | intK =>
    cases v <;> simp [isInst, isInstOne, Value.pyTy, scalarTypes] at hacc
    case bool b =>
      refine ⟨Value.bool b, Value.int (if b then 1 else 0), rfl, ?_, ?_⟩
      · simp [scalarParse, IntField.parse_value, Value.isNone, pyInt]
      · cases b <;> simp [pyEq]
    case int n =>
      exact ⟨Value.int n, Value.int n, rfl,
        by simp [scalarParse, IntField.parse_value, Value.isNone, pyInt],
        by simp [pyEq]⟩
  | floatK =>
    cases v <;> simp [isInst, isInstOne, Value.pyTy, scalarTypes] at hacc
    case bool b =>
      exact ⟨Value.bool b, Value.bool b, rfl, rfl, by simp [pyEq]⟩
    case int n =>
      exact ⟨Value.int n, Value.int n, rfl, rfl, by simp [pyEq]⟩
    case float q =>
      exact ⟨Value.float q, Value.float q, rfl, rfl, by simp [pyEq]⟩
  | boolK =>
    cases v <;> simp [isInst, isInstOne, Value.pyTy, scalarTypes] at hacc
    case bool b =>
      exact ⟨Value.bool b, Value.bool b, rfl,
        by simp [scalarParse, Value.isNone, pyTruthy], by simp [pyEq]⟩
  | timeK =>
    cases v <;> simp [isInst, isInstOne, Value.pyTy, scalarTypes] at hacc
    case time t =>
      refine ⟨Value.str (isoTime t), Value.time t, rfl, ?_, ?_⟩
      · simp [scalarParse, Value.isNone, parseTimeStr, parseTimeTail_iso t hwf]
      · simp [pyEq, pyTimeEq_refl]
  | dateK =>
    cases v <;> simp [isInst, isInstOne, Value.pyTy, scalarTypes] at hacc
    case date d =>
      refine ⟨Value.str (isoDate d), Value.date d, rfl, ?_, ?_⟩
      · have hrd : readDatePart (isoDate d) = some (d, []) := by
          have h := readDatePart_iso d hwf []
          simpa using h
        simp [scalarParse, Value.isNone, isInst, isInstOne, Value.pyTy,
          parseDateStr, hrd]
      · simp [pyEq]
    case datetime dt =>
      exact absurd rfl (hdt rfl)
  | datetimeK =>
    cases v <;> simp [isInst, isInstOne, Value.pyTy, scalarTypes] at hacc
    case datetime dt =>
      obtain ⟨hwd, hwt⟩ := hwf
      refine ⟨Value.str (isoDateTime dt), Value.datetime dt, rfl, ?_, ?_⟩
      · have hne : isoDateTime dt ≠ [] := by
          simp [isoDateTime, isoDate, pad4, pad2]
        have hrd : readDatePart (isoDate dt.date ++ ('T' :: isoTime dt.time)) =
            some (dt.date, 'T' :: isoTime dt.time) :=
          readDatePart_iso dt.date hwd ('T' :: isoTime dt.time)
        simp [scalarParse, isInst, isInstOne, Value.pyTy, pyTruthy,
          List.isEmpty_iff, hne, parseDateTimeStr, isoDateTime, hrd,
          parseTimeTail_iso dt.time hwt]
      · simp [pyEq, pyDateTimeEq_refl]

/-- The concrete aware time used in the C9 witness. -/
def timeEx : PyTime :=
  { hour := 12, minute := 30, second := 45, micro := 123456
    tzMin := some 330 }

/-- Witness for C9 (amended) at an aware time with microseconds: the
serialized form and the parsed-back value, both computed. -/
theorem scalar_roundtrip_witness :
    scalarToStruct ScalarKind.timeK (Value.time timeEx) =
      Except.ok (Value.str "12:30:45.123456+05:30".toList)
    ∧ scalarParse ScalarKind.timeK (Value.str "12:30:45.123456+05:30".toList) =
      Except.ok (Value.time timeEx)
    ∧ pyEq (Value.time timeEx) (Value.time timeEx) = true := by
  obtain ⟨w, v', h1, h2, h3⟩ :=
    scalar_roundtrip ScalarKind.timeK (Value.time timeEx) rfl
      ⟨by decide, by decide, by decide, by decide,
        fun off hoff => by cases hoff; decide⟩
      (fun h => nomatch h)
  have hc1 : scalarToStruct ScalarKind.timeK (Value.time timeEx) =
      Except.ok (Value.str "12:30:45.123456+05:30".toList) := rfl
  have hw : w = Value.str "12:30:45.123456+05:30".toList := by
    have := h1.symm.trans hc1
    exact Except.ok.inj this
  subst hw
  have hc2 : scalarParse ScalarKind.timeK
      (Value.str "12:30:45.123456+05:30".toList) =
      Except.ok (Value.time timeEx) := by
    rfl
  have hv : v' = Value.time timeEx := by
    have := h2.symm.trans hc2
    exact Except.ok.inj this
  subst hv
  exact ⟨hc1, hc2, h3⟩

end JsonModels
